import Mathlib

/-!
Verification model of the map download and verification pipeline found in
`src/lib/conveyor/handlers/settings-handler.ts`.

The embedding is shallow: each handler is translated into a pure Lean
function over an explicit state.  Network and decompression effects are
supplied by environment values (one constructor per observable outcome of
the corresponding `await`), filesystem contents relevant to a function are
threaded as explicit fields, and the module-level mutable records
(`bulkDownloadProgress`, `packageDownloadProgress`,
`packageDownloadCancelled`, the two cache files) become structure values.
Byte counts are `Nat`, ratios (progress, bytes per second) are `ℚ`.
The sub-500ms throughput sampling inside the streaming loops only mutates
`downloadSpeed` transiently and every terminal path either clears or
overwrites that field, so the intermediate samples are not modelled; the
final `totalBytes / totalElapsedSeconds` assignment is.
-/

namespace SettingsHandler

/-- Status of one map inside a bulk download (`MapDownloadProgress.status`). -/
inductive MapStatus
  | pending
  | downloading
  | completed
  | failed
deriving DecidableEq, Repr

/-- One entry of `bulkDownloadProgress.maps` (interface `MapDownloadProgress`,
lines 280-285). -/
structure MapDownloadProgress where
  mapName : String
  progress : ℚ
  status : MapStatus
  error : Option String
deriving DecidableEq, Repr

/-- The module-level `bulkDownloadProgress` record (lines 287-303). -/
structure BulkDownloadProgress where
  total : Nat
  completed : Nat
  failed : Nat
  maps : List MapDownloadProgress
  downloading : Bool
  currentMap : Option String
  downloadSpeed : Option ℚ
deriving DecidableEq, Repr

/-- Outcome of one `net.fetch` call as the downloader observes it: the fetch
may throw, deliver a non-ok response, or deliver a full body of `bytes`
bytes in `elapsedSec` seconds with a declared `content-length` header value. -/
inductive FetchOutcome
  | netError (msg : String)
  | httpError (status : Nat)
  | ok (bytes : Nat) (elapsedSec : ℚ) (contentLength : Nat)
deriving DecidableEq, Repr

/-- Environment of a single item processed by `downloadMapFile`: outcome of
the `.bsp.bz2` fetch, of bzip2 decoding, and of the `.bsp` fetch, plus
whether the direct response exposes a streaming reader. -/
structure ItemEnv where
  bz2Fetch : FetchOutcome
  decompressOk : Bool
  decompressErr : String
  decompressedSize : Nat
  directFetch : FetchOutcome
  streamingAvailable : Bool
deriving DecidableEq, Repr

/-- Files of one item on disk: sizes of `<map>.bsp` and of the `<map>.bsp.bz2`
intermediate (`none` means absent). -/
structure ItemFs where
  bsp : Option Nat
  bz2 : Option Nat
deriving DecidableEq, Repr

/-- Return value of `downloadMapFile` (`{ success, error? }`). -/
structure DownloadResult where
  success : Bool
  error : Option String
deriving DecidableEq, Repr

/-- Absolute difference `Math.abs(a - b)` used by the size verification. -/
def sizeDiff (a b : Nat) : Nat := ((a : Int) - (b : Int)).natAbs

/-- Message of the error thrown on a non-ok response (line 361 and 414). -/
def httpErrorMsg (status : Nat) : String := "HTTP " ++ toString status

/-- Message of the error thrown on a fatal size mismatch (lines 393 and 485). -/
def sizeMismatchMsg (expected got : Nat) : String :=
  "Size mismatch: expected " ++ toString expected ++ ", got " ++ toString got

/-- Apply `f` to the first element satisfying `p`; this is how the in-place
mutation of the object found by `bulkDownloadProgress.maps.find(...)` acts
on the list. -/
def updateFirst {α : Type} (p : α → Bool) (f : α → α) : List α → List α
  | [] => []
  | x :: xs => if p x then f x :: xs else x :: updateFirst p f xs

/-- Apply `f` to the entry of the named map, which is how an in-place
mutation of the object found by
`bulkDownloadProgress.maps.find((m) => m.mapName === mapName)` acts. -/
def setItem (mapName : String) (f : MapDownloadProgress → MapDownloadProgress)
    (maps : List MapDownloadProgress) : List MapDownloadProgress :=
  updateFirst (fun m => m.mapName == mapName) f maps

/-- Opening steps of `downloadMapFile` (lines 344-352): mark the item as
`downloading` with progress 0 and publish it as the current map with a
cleared download speed. -/
def markStart (mapName : String) (st : BulkDownloadProgress) : BulkDownloadProgress :=
  let maps1 := setItem mapName (fun m => { m with status := MapStatus.downloading, progress := 0 }) st.maps
  { st with maps := maps1, currentMap := some mapName, downloadSpeed := none }

/-- Success tail of the compressed attempt (lines 397-401): mark the item
completed with progress 1.  Note that `currentMap` and `downloadSpeed` are
not cleared on this path. -/
def bz2Finish (mapName : String) (st : BulkDownloadProgress) (fs : ItemFs) :
    Except String Unit × BulkDownloadProgress × ItemFs :=
  let maps1 := setItem mapName (fun m => { m with status := MapStatus.completed, progress := 1 }) st.maps
  (Except.ok (), { st with maps := maps1 }, fs)

/-- The compressed (`.bz2`) attempt of `downloadMapFile`: the `try` block at
lines 356-401.  An `Except.error` is the thrown error caught at line 402,
after which the caller falls through to the direct attempt; state changes
made before the throw persist.  `decompressBzip2` (lines 323-329) writes the
decoded bytes to the `.bsp` path and then removes the `.bz2` file; if
decoding throws, the `.bz2` file stays behind and the `.bsp` path is
untouched. -/
def bz2Attempt (env : ItemEnv) (mapName : String) (expectedSize : Nat)
    (st : BulkDownloadProgress) (fs : ItemFs) :
    Except String Unit × BulkDownloadProgress × ItemFs :=
  match env.bz2Fetch with
  | FetchOutcome.netError msg => (Except.error msg, st, fs)
  | FetchOutcome.httpError status => (Except.error (httpErrorMsg status), st, fs)
  | FetchOutcome.ok bytes elapsedSec _ =>
    let st := { st with maps := setItem mapName (fun m => { m with progress := 1 }) st.maps }
    let st := if 0 < elapsedSec then
        { st with downloadSpeed := some ((bytes : ℚ) / elapsedSec) } else st
    let fs := { fs with bz2 := some bytes }
    if env.decompressOk then
      let fs := { fs with bsp := some env.decompressedSize, bz2 := none }
      if env.decompressedSize ≠ expectedSize then
        if sizeDiff env.decompressedSize expectedSize > 1024 * 1024 then
          (Except.error (sizeMismatchMsg expectedSize env.decompressedSize), st,
            { fs with bsp := none })
        else bz2Finish mapName st fs
      else bz2Finish mapName st fs
    else
      (Except.error env.decompressErr, st, fs)

/-- Failure tail of the direct attempt: the `catch` block at lines 496-506.
It marks the item failed with the error message, increments the session's
`failed` counter, and clears `currentMap` and `downloadSpeed`. -/
def directCatch (mapName : String) (msg : String)
    (st : BulkDownloadProgress) (fs : ItemFs) :
    DownloadResult × BulkDownloadProgress × ItemFs :=
  let maps1 := setItem mapName (fun m => { m with status := MapStatus.failed, error := some msg }) st.maps
  (⟨false, some msg⟩,
    { st with maps := maps1, failed := st.failed + 1, currentMap := none, downloadSpeed := none }, fs)

/-- Success tail of the direct attempt (lines 489-495): mark the item
completed and clear `currentMap` and `downloadSpeed`. -/
def directFinish (mapName : String) (st : BulkDownloadProgress) (fs : ItemFs) :
    DownloadResult × BulkDownloadProgress × ItemFs :=
  let maps1 := setItem mapName (fun m => { m with status := MapStatus.completed, progress := 1 }) st.maps
  (⟨true, none⟩, { st with maps := maps1, currentMap := none, downloadSpeed := none }, fs)

/-- The direct (`.bsp`) attempt of `downloadMapFile` with its own `try` and
`catch` (lines 409-506).  The streaming branch ends with the item progress at
`bytes / contentLength` (when a content length is declared) and the buffered
branch at 1; both then write the buffer to the `.bsp` path and verify its
size, with the `expectedSize > 0` guard of line 480. -/
def directAttempt (env : ItemEnv) (mapName : String) (expectedSize : Nat)
    (st : BulkDownloadProgress) (fs : ItemFs) :
    DownloadResult × BulkDownloadProgress × ItemFs :=
  match env.directFetch with
  | FetchOutcome.netError msg => directCatch mapName msg st fs
  | FetchOutcome.httpError status => directCatch mapName (httpErrorMsg status) st fs
  | FetchOutcome.ok bytes elapsedSec contentLength =>
    let st :=
      if env.streamingAvailable then
        let st := if 0 < contentLength then
            { st with maps := setItem mapName (fun m => { m with progress := (bytes : ℚ) / (contentLength : ℚ) }) st.maps }
          else st
        if 0 < elapsedSec then
          { st with downloadSpeed := some ((bytes : ℚ) / elapsedSec) } else st
      else
        let st := { st with maps := setItem mapName (fun m => { m with progress := 1 }) st.maps }
        if 0 < elapsedSec then
          { st with downloadSpeed := some ((bytes : ℚ) / elapsedSec) } else st
    let fs := { fs with bsp := some bytes }
    if expectedSize > 0 ∧ bytes ≠ expectedSize then
      if sizeDiff bytes expectedSize > 1024 * 1024 then
        directCatch mapName (sizeMismatchMsg expectedSize bytes) st { fs with bsp := none }
      else directFinish mapName st fs
    else directFinish mapName st fs

/-- `downloadMapFile` (lines 334-507): for maps under 150 MiB attempt the
compressed strategy first, falling through to the direct attempt when it
throws; at or above the threshold run the direct attempt only. -/
def downloadMapFile (env : ItemEnv) (mapName : String) (expectedSize : Nat)
    (st : BulkDownloadProgress) (fs : ItemFs) :
    DownloadResult × BulkDownloadProgress × ItemFs :=
  let st1 := markStart mapName st
  if expectedSize < 150 * 1024 * 1024 then
    match bz2Attempt env mapName expectedSize st1 fs with
    | (Except.ok _, st2, fs2) => (⟨true, none⟩, st2, fs2)
    | (Except.error _, st2, fs2) => directAttempt env mapName expectedSize st2 fs2
  else
    directAttempt env mapName expectedSize st1 fs

/-- Fresh `bulkDownloadProgress` seeded by `settings:download-missing-maps`
(lines 758-771). -/
def initialBulk (mapNames : List String) : BulkDownloadProgress :=
  { total := mapNames.length
    completed := 0
    failed := 0
    maps := mapNames.map (fun name =>
      { mapName := name, progress := 0, status := MapStatus.pending, error := none })
    downloading := true
    currentMap := none
    downloadSpeed := none }

/-- One iteration of the sequential download loop (lines 774-783): run
`downloadMapFile` with the expected size `mapsMap.get(mapName) || 0` and bump
the session counters from its result. -/
def stepItem (sizes : String → Option Nat) (mapName : String) (env : ItemEnv)
    (st : BulkDownloadProgress) : BulkDownloadProgress :=
  let r := downloadMapFile env mapName ((sizes mapName).getD 0) st ⟨none, none⟩
  if r.1.success then { r.2.1 with completed := r.2.1.completed + 1 }
  else { r.2.1 with failed := r.2.1.failed + 1 }

/-- The sequential download loop over the requested names. -/
def runItems (sizes : String → Option Nat) :
    List (String × ItemEnv) → BulkDownloadProgress → BulkDownloadProgress
  | [], st => st
  | (name, env) :: rest, st => runItems sizes rest (stepItem sizes name env st)

/-- Session snapshots taken after each loop iteration: entry `k` is the
state at which item `k` has reached a terminal status and item `k + 1` has
not yet started. -/
def runItemsTrace (sizes : String → Option Nat) :
    List (String × ItemEnv) → BulkDownloadProgress → List BulkDownloadProgress
  | [], _ => []
  | (name, env) :: rest, st =>
    let st1 := stepItem sizes name env st
    st1 :: runItemsTrace sizes rest st1

/-- Core of `settings:download-missing-maps` (lines 728-805) once its
configuration guards have passed: seed a fresh session, process every item
in order, then flip `downloading` off and clear `currentMap` and
`downloadSpeed`. -/
def downloadMissingMaps (sizes : String → Option Nat)
    (jobs : List (String × ItemEnv)) : BulkDownloadProgress :=
  let st := runItems sizes jobs (initialBulk (jobs.map Prod.fst))
  { st with downloading := false, currentMap := none, downloadSpeed := none }

/-- Status of the named item in a session, as an observer reads it. -/
def itemStatus (mapName : String) (st : BulkDownloadProgress) : Option MapStatus :=
  (st.maps.find? (fun m => m.mapName == mapName)).map (fun m => m.status)

/-- Error field of the named item in a session. -/
def itemError (mapName : String) (st : BulkDownloadProgress) : Option (Option String) :=
  (st.maps.find? (fun m => m.mapName == mapName)).map (fun m => m.error)

/-- Truth value of failure of an attempt result. -/
def exceptIsError {ε α : Type} : Except ε α → Bool
  | Except.error _ => true
  | Except.ok _ => false

/-- Expected sizes of the three-name batch scenario: every name resolves to
1000 bytes in the fetched catalog. -/
def scenarioSizes : String → Option Nat := fun _ => some 1000

/-- The three-name batch scenario: items 1 and 3 succeed via the compressed
strategy (body fetched, decompressed to exactly the expected 1000 bytes),
while item 2's compressed and direct fetches both return HTTP 500. -/
def scenarioJobs : List (String × ItemEnv) :=
  [("map_a", ⟨FetchOutcome.ok 400 0 0, true, "", 1000, FetchOutcome.netError "", false⟩),
   ("map_b", ⟨FetchOutcome.httpError 500, true, "", 1000, FetchOutcome.httpError 500, false⟩),
   ("map_c", ⟨FetchOutcome.ok 400 0 0, true, "", 1000, FetchOutcome.netError "", false⟩)]

/-- Session state after running the three-name batch scenario. -/
def scenarioSession : BulkDownloadProgress :=
  downloadMissingMaps scenarioSizes scenarioJobs

/-! ### Catalog client (`settings:fetch-maps-list`, lines 645-682) -/

/-- One day in milliseconds (line 214). -/
def oneDayInMs : Int := 24 * 60 * 60 * 1000

/-- `isCacheValid` (lines 213-217): the cached timestamp is valid while its
age, measured against the current clock, is under one day. -/
def isCacheValid (timestamp now : Int) : Bool := now - timestamp < oneDayInMs

/-- Outcome of the catalog fetch as observed by the handler: `net.fetch`
itself may throw, or it returns a response carrying its `ok` flag, status,
status text, and a JSON body whose decoding may itself throw. -/
inductive CatalogNet (α : Type)
  | throws (msg : String)
  | resp (ok : Bool) (status : Nat) (statusText : String) (jsonThrows : Bool) (body : α)

/-- A catalog fetch failed when `net.fetch` threw or the response was not ok. -/
def CatalogNet.fails {α : Type} : CatalogNet α → Bool
  | CatalogNet.throws _ => true
  | CatalogNet.resp ok _ _ _ _ => !ok

/-- Message of the error thrown at line 663 for a non-ok catalog response. -/
def catalogHttpMsg (status : Nat) (statusText : String) : String :=
  "HTTP " ++ toString status ++ ": " ++ statusText

/-- Placeholder message of a `response.json()` rejection. -/
def jsonParseErrorMsg : String := "invalid json"

/-- `settings:fetch-maps-list` (lines 646-682).  The cache store
(`maps-cache.json`) is passed in as `data × timestamp` and returned possibly
refreshed; the first component is what the handler returns or throws.  A
valid cache short-circuits the fetch; on any fetch failure the handler falls
back to the cache when one exists, of any age, and otherwise propagates the
error. -/
def fetchMapsList {α : Type} (cache : Option (α × Int)) (now : Int)
    (net : CatalogNet α) : Except String α × Option (α × Int) :=
  match cache with
  | some (d, ts) =>
    if isCacheValid ts now then (Except.ok d, cache)
    else
      match net with
      | CatalogNet.throws _ => (Except.ok d, cache)
      | CatalogNet.resp ok _ _ jsonThrows body =>
        if !ok then (Except.ok d, cache)
        else if jsonThrows then (Except.ok d, cache)
        else (Except.ok body, some (body, now))
  | none =>
    match net with
    | CatalogNet.throws msg => (Except.error msg, none)
    | CatalogNet.resp ok status statusText jsonThrows body =>
      if !ok then (Except.error (catalogHttpMsg status statusText), none)
      else if jsonThrows then (Except.error jsonParseErrorMsg, none)
      else (Except.ok body, some (body, now))

/-! ### Package (archive) download
(`settings:download-map-package`, lines 812-969, and
`settings:cancel-package-download`, lines 976-996) -/

/-- The module-level `packageDownloadProgress` record (lines 266-270). -/
structure PackageDownloadProgress where
  progress : ℚ
  downloading : Bool
  downloadSpeed : Option ℚ
deriving DecidableEq, Repr

/-- Handler return value `{ success, message }`. -/
structure HandlerResult where
  success : Bool
  message : String
deriving DecidableEq, Repr

/-- Outcome of the package fetch: a thrown error, or a response with its
`ok` flag, status data, whether a streaming reader is available, the body
chunk sizes the reader would deliver, the declared content length, and the
elapsed wall time of the body transfer. -/
inductive PackageNet
  | throws (msg : String)
  | resp (ok : Bool) (status : Nat) (statusText : String) (streaming : Bool)
      (chunks : List Nat) (contentLength : Nat) (elapsedSec : ℚ)
deriving DecidableEq, Repr

/-- Message returned on every cancellation exit (lines 877, 912, 941). -/
def cancelMessage : String := "Download cancelled by user"

/-- Destination file name of the package download (line 834). -/
def packagePath : String := "GlobalMaps.7z"

/-- Progress record after the three assignments performed on every
cancellation or error exit: `progress = 0`, `downloading = false`,
`downloadSpeed = null`. -/
def clearedProgress : PackageDownloadProgress :=
  { progress := 0, downloading := false, downloadSpeed := none }

/-- Value of the `packageDownloadCancelled` flag at its `i`-th read after
the download reset it: an external cancel request makes the flag true from
some read onward (the flag is never cleared during a run), so the schedule
is the index of the first read that observes `true`, if any. -/
def flagAt (cancelFrom : Option Nat) (i : Nat) : Bool :=
  match cancelFrom with
  | none => false
  | some t => t ≤ i

/-- The streaming read loop of the package download (lines 865-903): before
each `reader.read()` the cancellation flag is checked (reads `i, i+1, ...`);
each chunk bumps the received byte count and, when a content length is
declared, the progress ratio.  The loop exits either cancelled (with the
three progress fields cleared, lines 868-870) or with the final byte count
and the index of the next flag read. -/
def packageReadLoop (cancelFrom : Option Nat) (contentLength : Nat) :
    List Nat → Nat → Nat → PackageDownloadProgress →
      (Option (Nat × Nat)) × PackageDownloadProgress
  | [], i, received, prog =>
    if flagAt cancelFrom i then (none, clearedProgress)
    else (some (received, i + 1), prog)
  | c :: rest, i, received, prog =>
    if flagAt cancelFrom i then (none, clearedProgress)
    else
      let received := received + c
      let prog := if 0 < contentLength then
          { prog with progress := (received : ℚ) / (contentLength : ℚ) } else prog
      packageReadLoop cancelFrom contentLength rest (i + 1) received prog

/-- Core of `settings:download-map-package` (lines 812-969) once its
configuration guards have passed.  `dest` is the file at the package path
before the call (`none` = absent); the result is the handler return value,
the final `packageDownloadProgress`, and the file at the package path
afterwards.  The in-loop cancellation exit deletes whatever file sits at the
package path (lines 871-874); the two later cancellation checks (lines
905-914 and 934-943) return without touching the path.  Thrown errors pass
through the inner and outer `catch` (lines 954-968), each of which clears
the progress record. -/
def downloadMapPackage (cancelFrom : Option Nat) (net : PackageNet)
    (dest : Option Nat) : HandlerResult × PackageDownloadProgress × Option Nat :=
  let prog : PackageDownloadProgress := { progress := 0, downloading := true, downloadSpeed := none }
  match net with
  | PackageNet.throws msg =>
    (⟨false, "Error downloading map package: " ++ msg⟩, clearedProgress, dest)
  | PackageNet.resp ok status statusText streaming chunks contentLength elapsedSec =>
    if !ok then
      (⟨false, "Error downloading map package: " ++ catalogHttpMsg status statusText⟩,
        clearedProgress, dest)
    else if streaming then
      match packageReadLoop cancelFrom contentLength chunks 0 0 prog with
      | (none, prog1) => (⟨false, cancelMessage⟩, prog1, none)
      | (some (received, nextCheck), prog1) =>
        if flagAt cancelFrom nextCheck then (⟨false, cancelMessage⟩, clearedProgress, dest)
        else
          let prog2 := if 0 < elapsedSec then
              { prog1 with downloadSpeed := some ((received : ℚ) / elapsedSec) } else prog1
          if flagAt cancelFrom (nextCheck + 1) then (⟨false, cancelMessage⟩, clearedProgress, dest)
          else
            (⟨true, "Map package downloaded successfully to " ++ packagePath⟩,
              { prog2 with downloading := false, progress := 1 }, some received)
    else
      let bodyBytes := chunks.sum
      let prog1 := { prog with progress := 1 }
      let prog2 := if 0 < elapsedSec then
          { prog1 with downloadSpeed := some ((bodyBytes : ℚ) / elapsedSec) } else prog1
      if flagAt cancelFrom 0 then (⟨false, cancelMessage⟩, clearedProgress, dest)
      else
        (⟨true, "Map package downloaded successfully to " ++ packagePath⟩,
          { prog2 with downloading := false, progress := 1 }, some bodyBytes)

/-- Module state touched or framed by `settings:cancel-package-download`:
the cancellation flag, the two cache files (`maps-cache.json` and
`checked-maps-cache.json`, each `data × timestamp`), and — for frame
reasoning — the package progress record and the file at the package path. -/
structure MainState (α β : Type) where
  packageDownloadCancelled : Bool
  mapsCache : Option (α × Int)
  checkedMapsCache : Option (β × Int)
  packageProgress : PackageDownloadProgress
  packageFile : Option Nat

/-- `settings:cancel-package-download` (lines 977-996): set the cancellation
flag, then delete the maps cache file and the checked-maps cache file when
they exist, and return `{ success: true }`. -/
def cancelPackageDownload {α β : Type} (st : MainState α β) : MainState α β × Bool :=
  let st := { st with packageDownloadCancelled := true }
  let st := if st.mapsCache.isSome then { st with mapsCache := none } else st
  let st := if st.checkedMapsCache.isSome then { st with checkedMapsCache := none } else st
  (st, true)

/-! ## Helper lemmas -/

/-- Finding after an in-place mutation of the found element: when `f`
preserves the search predicate, `find?` on the mutated list returns the
mutated element. -/
theorem find?_updateFirst {α : Type} (p : α → Bool) (f : α → α)
    (hf : ∀ x, p x = true → p (f x) = true) :
    ∀ l : List α, (updateFirst p f l).find? p = (l.find? p).map f := by
  intro l
  induction l with
  | nil => rfl
  | cons x xs ih =>
    by_cases hx : p x = true
    · simp [updateFirst, hx, List.find?_cons_of_pos, hf x hx]
    · simp only [Bool.not_eq_true] at hx
      simp [updateFirst, hx, List.find?_cons_of_neg, ih]

/-- Specialisation of `find?_updateFirst` to `setItem` with a mutation that
keeps the map's name. -/
theorem find?_setItem (n : String) (f : MapDownloadProgress → MapDownloadProgress)
    (hf : ∀ m, (f m).mapName = m.mapName) (maps : List MapDownloadProgress) :
    (setItem n f maps).find? (fun m => m.mapName == n)
      = (maps.find? (fun m => m.mapName == n)).map f := by
  apply find?_updateFirst
  intro x hx
  rw [hf]
  exact hx

/-- The direct attempt always ends with `currentMap` and `downloadSpeed`
cleared, whether it succeeds (lines 493-494) or fails (lines 503-504). -/
theorem directAttempt_clears (env : ItemEnv) (n : String) (e : Nat)
    (st : BulkDownloadProgress) (fs : ItemFs) :
    ((directAttempt env n e st fs).2.1).currentMap = none
    ∧ ((directAttempt env n e st fs).2.1).downloadSpeed = none := by
  unfold directAttempt
  cases h : env.directFetch with
  | netError msg => simp [directCatch]
  | httpError status => simp [directCatch]
  | ok bytes t cl =>
    simp only
    split_ifs <;> simp [directCatch, directFinish]

/-- The compressed attempt never touches `currentMap`. -/
theorem bz2Attempt_currentMap (env : ItemEnv) (n : String) (e : Nat)
    (st : BulkDownloadProgress) (fs : ItemFs) :
    ((bz2Attempt env n e st fs).2.1).currentMap = st.currentMap := by
  unfold bz2Attempt
  cases h : env.bz2Fetch with
  | netError msg => simp
  | httpError status => simp
  | ok bytes t cl =>
    simp only
    split_ifs <;> simp [bz2Finish]

/-- The compressed attempt never marks the item `failed`: its status is
either untouched or set to `completed`. -/
theorem bz2Attempt_not_failed (env : ItemEnv) (n : String) (e : Nat)
    (st : BulkDownloadProgress) (fs : ItemFs)
    (h : itemStatus n st ≠ some MapStatus.failed) :
    itemStatus n ((bz2Attempt env n e st fs).2.1) ≠ some MapStatus.failed := by
  unfold bz2Attempt
  cases henv : env.bz2Fetch with
  | netError msg => simpa using h
  | httpError status => simpa using h
  | ok bytes t cl =>
    simp only
    split_ifs <;> simp_all [bz2Finish, itemStatus, find?_setItem]

/-- Marking an item as started sets its status to `downloading`. -/
theorem itemStatus_markStart (n : String) (st : BulkDownloadProgress) :
    itemStatus n (markStart n st)
      = (st.maps.find? (fun m => m.mapName == n)).map (fun _ => MapStatus.downloading) := by
  simp [itemStatus, markStart, setItem, find?_updateFirst, Option.map_map]
  rfl

/-- The compressed attempt keeps the item present in the session list. -/
theorem bz2Attempt_present (env : ItemEnv) (n : String) (e : Nat)
    (st : BulkDownloadProgress) (fs : ItemFs) :
    ((((bz2Attempt env n e st fs).2.1).maps.find? (fun m => m.mapName == n))).isSome
      = ((st.maps.find? (fun m => m.mapName == n))).isSome := by
  unfold bz2Attempt
  cases h : env.bz2Fetch with
  | netError msg => simp
  | httpError status => simp
  | ok bytes t cl =>
    simp only
    split_ifs <;> simp [bz2Finish, setItem, find?_updateFirst]

/-- Starting an item keeps it present in the session list. -/
theorem markStart_present (n : String) (st : BulkDownloadProgress) :
    (((markStart n st).maps.find? (fun m => m.mapName == n))).isSome
      = ((st.maps.find? (fun m => m.mapName == n))).isSome := by
  simp [markStart, setItem, find?_updateFirst]

/-- Every run of the direct attempt ends in its success tail or in its
catch block, and either way the item stays present in the session list. -/
theorem directAttempt_shape (env : ItemEnv) (n : String) (e : Nat)
    (st : BulkDownloadProgress) (fs : ItemFs) :
    (∃ st2 fs2, directAttempt env n e st fs = directFinish n st2 fs2
      ∧ (st2.maps.find? (fun m => m.mapName == n)).isSome
          = (st.maps.find? (fun m => m.mapName == n)).isSome)
    ∨ (∃ msg st2 fs2, directAttempt env n e st fs = directCatch n msg st2 fs2
      ∧ (st2.maps.find? (fun m => m.mapName == n)).isSome
          = (st.maps.find? (fun m => m.mapName == n)).isSome) := by
  obtain ⟨bzf, dok, derr, dsz, dirf, sa⟩ := env
  unfold directAttempt
  cases dirf with
  | netError m0 => exact Or.inr ⟨m0, st, fs, rfl, rfl⟩
  | httpError status => exact Or.inr ⟨httpErrorMsg status, st, fs, rfl, rfl⟩
  | ok bytes t cl =>
    simp only
    split_ifs <;>
      first
        | (refine Or.inr ⟨_, _, _, rfl, ?_⟩
           simp [setItem, find?_updateFirst])
        | (refine Or.inl ⟨_, _, rfl, ?_⟩
           simp [setItem, find?_updateFirst])

/-- The catch block of the direct attempt reports failure and records its
message on the item, marking it `failed`. -/
theorem directCatch_sets_item (n msg : String) (st : BulkDownloadProgress)
    (fs : ItemFs)
    (hmem : (st.maps.find? (fun m => m.mapName == n)).isSome = true) :
    (directCatch n msg st fs).1 = ⟨false, some msg⟩
    ∧ itemStatus n ((directCatch n msg st fs).2.1) = some MapStatus.failed
    ∧ itemError n ((directCatch n msg st fs).2.1) = some (some msg) := by
  rcases hfind : st.maps.find? (fun m => m.mapName == n) with _ | m
  · rw [hfind] at hmem; simp at hmem
  refine ⟨rfl, ?_, ?_⟩ <;>
    simp [directCatch, itemStatus, itemError, setItem, find?_updateFirst, hfind]

/-- A failing direct attempt reports failure and records its error message
on the item, marking it `failed`. -/
theorem directAttempt_error_sets_item (env : ItemEnv) (n : String) (e : Nat)
    (st : BulkDownloadProgress) (fs : ItemFs)
    (hmem : (st.maps.find? (fun m => m.mapName == n)).isSome = true) :
    ∀ msg, (directAttempt env n e st fs).1.error = some msg →
      (directAttempt env n e st fs).1.success = false
      ∧ itemStatus n ((directAttempt env n e st fs).2.1) = some MapStatus.failed
      ∧ itemError n ((directAttempt env n e st fs).2.1) = some (some msg) := by
  intro msg hmsg
  rcases directAttempt_shape env n e st fs with ⟨st2, fs2, heq, _⟩ | ⟨m0, st2, fs2, heq, hpres⟩
  · rw [heq] at hmsg
    simp [directFinish] at hmsg
  · have hmem2 : (st2.maps.find? (fun m => m.mapName == n)).isSome = true := by
      rw [hpres]; exact hmem
    have h := directCatch_sets_item n m0 st2 fs2 hmem2
    rw [heq] at hmsg ⊢
    rw [h.1] at hmsg
    obtain rfl : m0 = msg := by simpa using hmsg
    exact ⟨by rw [h.1], h.2.1, h.2.2⟩

/-- The direct attempt reads only the direct-fetch outcome and the
streaming capability of its environment. -/
theorem directAttempt_congr (env env2 : ItemEnv)
    (h1 : env2.directFetch = env.directFetch)
    (h2 : env2.streamingAvailable = env.streamingAvailable)
    (n : String) (e : Nat) (st : BulkDownloadProgress) (fs : ItemFs) :
    directAttempt env2 n e st fs = directAttempt env n e st fs := by
  unfold directAttempt
  rw [h1, h2]

/-- The item state reached by one loop iteration has the `currentMap` and
`downloadSpeed` that `downloadMapFile` left behind (the counter bump
touches neither). -/
theorem stepItem_fields (sizes : String → Option Nat) (name : String)
    (env : ItemEnv) (st : BulkDownloadProgress) :
    (stepItem sizes name env st).currentMap
      = ((downloadMapFile env name ((sizes name).getD 0) st ⟨none, none⟩).2.1).currentMap
    ∧ (stepItem sizes name env st).downloadSpeed
      = ((downloadMapFile env name ((sizes name).getD 0) st ⟨none, none⟩).2.1).downloadSpeed := by
  unfold stepItem
  cases hs : (downloadMapFile env name ((sizes name).getD 0) st ⟨none, none⟩).1.success <;>
    simp [hs]

/-- Unless the compressed attempt decided the item, a run of
`downloadMapFile` ends in the direct attempt, which always clears
`currentMap` and `downloadSpeed`. -/
theorem downloadMapFile_clears_unless_bz2 (env : ItemEnv) (name : String)
    (e : Nat) (st : BulkDownloadProgress) (fs : ItemFs)
    (hcond : e < 150 * 1024 * 1024 →
      exceptIsError (bz2Attempt env name e (markStart name st) fs).1 = true) :
    ((downloadMapFile env name e st fs).2.1).currentMap = none
    ∧ ((downloadMapFile env name e st fs).2.1).downloadSpeed = none := by
  unfold downloadMapFile
  by_cases hlt : e < 150 * 1024 * 1024
  · rw [if_pos hlt]
    rcases hb : bz2Attempt env name e (markStart name st) fs with ⟨r, st2, fs2⟩
    cases r with
    | ok u =>
      have h2 := hcond hlt
      rw [hb] at h2
      simp [exceptIsError] at h2
    | error m => exact directAttempt_clears env name e st2 fs2
  · rw [if_neg hlt]
    exact directAttempt_clears env name e (markStart name st) fs

/-- When the compressed attempt decides the item, `downloadMapFile` returns
with `currentMap` still set to the item's name. -/
theorem downloadMapFile_bz2_success_keeps (env : ItemEnv) (name : String)
    (e : Nat) (st : BulkDownloadProgress) (fs : ItemFs)
    (hlt : e < 150 * 1024 * 1024)
    (hok : (bz2Attempt env name e (markStart name st) fs).1 = Except.ok ()) :
    ((downloadMapFile env name e st fs).2.1).currentMap = some name := by
  unfold downloadMapFile
  rw [if_pos hlt]
  rcases hb : bz2Attempt env name e (markStart name st) fs with ⟨r, st2, fs2⟩
  cases r with
  | ok u =>
    have h1 : st2.currentMap = (markStart name st).currentMap := by
      have h2 := bz2Attempt_currentMap env name e (markStart name st) fs
      rw [hb] at h2
      exact h2
    simpa [markStart] using h1
  | error m => rw [hb] at hok; simp at hok

/-- A cancelled exit of the package read loop always carries the cleared
progress record. -/
theorem packageReadLoop_cancelled (cf : Option Nat) (cl : Nat) :
    ∀ (chunks : List Nat) (i received : Nat) (prog : PackageDownloadProgress),
      (packageReadLoop cf cl chunks i received prog).1 = none →
      (packageReadLoop cf cl chunks i received prog).2 = clearedProgress := by
  intro chunks
  induction chunks with
  | nil =>
    intro i received prog h
    unfold packageReadLoop at h ⊢
    split_ifs at h ⊢
    rfl
  | cons c rest ih =>
    intro i received prog h
    unfold packageReadLoop at h ⊢
    split_ifs at h ⊢ <;> first | rfl | exact ih _ _ _ h

/-- The outer error wrapper of the package download can never produce the
cancellation message (the prefixes differ in length). -/
theorem errorResult_ne_cancel (msg : String) :
    "Error downloading map package: " ++ msg ≠ cancelMessage := by
  intro h
  have hlen := congrArg String.length h
  rw [String.length_append] at hlen
  have h1 : ("Error downloading map package: ").length = 31 := rfl
  have h2 : cancelMessage.length = 26 := rfl
  omega

/-- The success message of the package download is not the cancellation
message. -/
theorem successMsg_ne_cancel :
    ("Map package downloaded successfully to " ++ packagePath) ≠ cancelMessage := by
  decide

/-! ## Claim theorems -/

/-- C1 (code_bug evidence): the batch of 3 names where item 2's compressed
and direct fetches both return HTTP 500 ends with items 1 and 3 completed,
item 2 failed with the network-error message, and no item pending or
downloading — but the session counters read `completed = 2, failed = 2`
(the `failed` counter is incremented both inside `downloadMapFile`'s catch,
line 502, and in the batch loop, line 781), so `completed + failed = 4 ≠ 3`,
contradicting the claimed `completed + failed == N` and `failed = 1`. -/
theorem batch_failed_double_count :
    scenarioSession.total = 3
    ∧ scenarioSession.completed = 2
    ∧ scenarioSession.failed = 2
    ∧ scenarioSession.maps.map (fun m => m.status)
        = [MapStatus.completed, MapStatus.failed, MapStatus.completed]
    ∧ itemStatus "map_b" scenarioSession = some MapStatus.failed
    ∧ itemError "map_b" scenarioSession = some (some "HTTP 500")
    ∧ scenarioSession.completed + scenarioSession.failed ≠ scenarioSession.total := by
  decide

/-- C4 (counterexample): `settings:cancel-package-download` does not only
set the cancellation flag — on a state where the maps cache file exists it
deletes it (and the checked-maps cache file), a filesystem effect the claim
rules out. -/
theorem cancel_package_clears_cache_files :
    let st : MainState Nat Nat := ⟨false, some (7, 0), some (8, 0), clearedProgress, none⟩
    (cancelPackageDownload st).1.mapsCache = none
    ∧ (cancelPackageDownload st).1.checkedMapsCache = none
    ∧ (cancelPackageDownload st).1.mapsCache ≠ st.mapsCache := by
  decide

/-- C4 (amended): `settings:cancel-package-download` sets the cooperative
cancellation flag, deletes the maps cache file and the checked-maps cache
file, returns success, and mutates nothing else — the package progress
record and the file at the package path are untouched. -/
theorem cancel_package_download_effects (α β : Type) (st : MainState α β) :
    (cancelPackageDownload st).2 = true
    ∧ (cancelPackageDownload st).1.packageDownloadCancelled = true
    ∧ (cancelPackageDownload st).1.mapsCache = none
    ∧ (cancelPackageDownload st).1.checkedMapsCache = none
    ∧ (cancelPackageDownload st).1.packageProgress = st.packageProgress
    ∧ (cancelPackageDownload st).1.packageFile = st.packageFile := by
  obtain ⟨c, mc, cc, pp, pf⟩ := st
  cases mc <;> cases cc <;> simp [cancelPackageDownload]

/-- C5 (counterexample): with an unknown (zero) expected size, the
compressed path does not accept unconditionally: a decompressed file of
2 MiB fails the line-388 check (which lacks the `expectedSize > 0` guard of
the direct path), is deleted from disk, and the compressed attempt fails
with a size-mismatch error. -/
theorem zero_expected_compressed_rejects :
    let env : ItemEnv := ⟨FetchOutcome.ok 400 0 0, true, "", 2 * 1024 * 1024, FetchOutcome.netError "", false⟩
    let r := bz2Attempt env "m" 0 (initialBulk ["m"]) ⟨none, none⟩
    r.1 = Except.error (sizeMismatchMsg 0 (2 * 1024 * 1024))
    ∧ r.2.2.bsp = none := by
  exact ⟨rfl, rfl⟩

/-- C6: when the catalog fetch fails — thrown error or non-ok response —
`settings:fetch-maps-list` returns the cached data whenever a cache exists,
regardless of its age (the cache store is left untouched), and propagates
the failure only when no cache exists. -/
theorem catalog_fetch_failure_uses_cache (α : Type) (d : α) (ts now : Int)
    (net : CatalogNet α) (hfail : net.fails = true) :
    (fetchMapsList (some (d, ts)) now net).1 = Except.ok d
    ∧ (fetchMapsList (some (d, ts)) now net).2 = some (d, ts)
    ∧ exceptIsError (fetchMapsList (none : Option (α × Int)) now net).1 = true := by
  cases net with
  | throws msg =>
    simp only [fetchMapsList]
    split_ifs <;> simp [exceptIsError]
  | resp ok status statusText jsonThrows body =>
    simp only [CatalogNet.fails, Bool.not_eq_true'] at hfail
    subst hfail
    simp only [fetchMapsList]
    split_ifs <;> simp_all [exceptIsError]

/-- C6 (witness): a catalog fetch failing with HTTP 500 against a cache
written 10 days ago still returns the cached data, while the same failure
with no cache propagates the error. -/
theorem catalog_fetch_failure_uses_cache_witness :
    (fetchMapsList (some (42, 0)) (10 * 24 * 60 * 60 * 1000)
      (CatalogNet.resp false 500 "Internal Server Error" false (0 : Nat))).1 = Except.ok 42
    ∧ exceptIsError (fetchMapsList (none : Option (Nat × Int)) (10 * 24 * 60 * 60 * 1000)
      (CatalogNet.resp false 500 "Internal Server Error" false (0 : Nat))).1 = true := by
  have h := catalog_fetch_failure_uses_cache Nat 42 0 (10 * 24 * 60 * 60 * 1000)
    (CatalogNet.resp false 500 "Internal Server Error" false 0) (by rfl)
  exact ⟨h.1, h.2.2⟩

/-- C7 (counterexample): cancellation requested during the final chunk read
(first observed at the post-loop check, line 906) returns the cancellation
result with `progress = 0` and `downloading = false`, but a file that
already sat at the destination path remains there — the claim that no file
remains at the destination is false. -/
theorem cancel_preexisting_file_remains :
    let r := downloadMapPackage (some 2) (PackageNet.resp true 200 "OK" true [100] 100 0) (some 777)
    r.1 = ⟨false, cancelMessage⟩
    ∧ r.2.1 = clearedProgress
    ∧ r.2.2 = some 777
    ∧ r.2.2 ≠ none := by
  decide

/-- C8 (counterexample): after the first item of a two-item batch completes
via the compressed strategy, the session between items still carries
`currentMap = "map_a"` — the bz2 success path (lines 397-401) returns
without clearing it, so `currentItem` is not null at a point where an item
is terminal and the next has not started. -/
theorem between_items_current_map_not_cleared :
    let sizes : String → Option Nat := fun _ => some 1000
    let envA : ItemEnv := ⟨FetchOutcome.ok 400 0 0, true, "", 1000, FetchOutcome.netError "", false⟩
    let jobs := [("map_a", envA), ("map_b", envA)]
    let trace := runItemsTrace sizes jobs (initialBulk (jobs.map Prod.fst))
    (trace.headD (initialBulk [])).currentMap = some "map_a"
    ∧ itemStatus "map_a" (trace.headD (initialBulk [])) = some MapStatus.completed
    ∧ (trace.headD (initialBulk [])).currentMap ≠ none := by
  decide

/-- C2: size verification tolerance is exactly 1 MiB and symmetric, on both
the compressed and the direct path: for a positive expected size, an actual
size differing by at most 1024*1024 bytes is accepted (the attempt succeeds
and the file is kept on disk), while a difference strictly over 1 MiB
deletes the file from disk and fails that attempt with the size-mismatch
error. -/
theorem size_tolerance_one_mib (env : ItemEnv) (name : String)
    (expected actual bytes cl : Nat) (t : ℚ)
    (st : BulkDownloadProgress) (fs : ItemFs)
    (hpos : 0 < expected)
    (hbz : env.bz2Fetch = FetchOutcome.ok bytes t cl)
    (hok : env.decompressOk = true)
    (hds : env.decompressedSize = actual)
    (hdf : env.directFetch = FetchOutcome.ok actual t cl) :
    (sizeDiff actual expected ≤ 1024 * 1024 →
      (bz2Attempt env name expected st fs).1 = Except.ok ()
      ∧ ((bz2Attempt env name expected st fs).2.2).bsp = some actual
      ∧ (directAttempt env name expected st fs).1.success = true
      ∧ ((directAttempt env name expected st fs).2.2).bsp = some actual)
    ∧ (1024 * 1024 < sizeDiff actual expected →
      (bz2Attempt env name expected st fs).1
          = Except.error (sizeMismatchMsg expected actual)
      ∧ ((bz2Attempt env name expected st fs).2.2).bsp = none
      ∧ (directAttempt env name expected st fs).1
          = ⟨false, some (sizeMismatchMsg expected actual)⟩
      ∧ ((directAttempt env name expected st fs).2.2).bsp = none) := by
  obtain ⟨bzf, dok, derr, dsz, dirf, sa⟩ := env
  simp only at hbz hok hds hdf
  rw [hbz, hok, hds, hdf]
  unfold bz2Attempt directAttempt
  simp only
  constructor
  · intro hle
    have hng : ¬ (sizeDiff actual expected > 1024 * 1024) := by omega
    split_ifs <;> simp_all [bz2Finish, directFinish, directCatch]
  · intro hgt
    have hne : actual ≠ expected := by
      intro hcontra
      rw [hcontra] at hgt
      simp [sizeDiff] at hgt
    split_ifs <;> simp_all [bz2Finish, directFinish, directCatch]

/-- C2 (witness): for an expected size of 3 MiB, an actual size of exactly
4 MiB (difference 1 MiB) passes verification on both paths, while 4 MiB + 1
(difference 1 MiB + 1) fails the direct attempt with the size-mismatch
error. -/
theorem size_tolerance_one_mib_witness :
    (bz2Attempt ⟨FetchOutcome.ok 10 0 0, true, "", 4194304, FetchOutcome.ok 4194304 0 0, false⟩
        "m" 3145728 (initialBulk ["m"]) ⟨none, none⟩).1 = Except.ok ()
    ∧ (directAttempt ⟨FetchOutcome.ok 10 0 0, true, "", 4194305, FetchOutcome.ok 4194305 0 0, false⟩
        "m" 3145728 (initialBulk ["m"]) ⟨none, none⟩).1
        = ⟨false, some (sizeMismatchMsg 3145728 4194305)⟩
    ∧ ((directAttempt ⟨FetchOutcome.ok 10 0 0, true, "", 4194305, FetchOutcome.ok 4194305 0 0, false⟩
        "m" 3145728 (initialBulk ["m"]) ⟨none, none⟩).2.2).bsp = none := by
  have h1 := size_tolerance_one_mib
    ⟨FetchOutcome.ok 10 0 0, true, "", 4194304, FetchOutcome.ok 4194304 0 0, false⟩
    "m" 3145728 4194304 10 0 0 (initialBulk ["m"]) ⟨none, none⟩
    (by decide) rfl rfl rfl rfl
  have h2 := size_tolerance_one_mib
    ⟨FetchOutcome.ok 10 0 0, true, "", 4194305, FetchOutcome.ok 4194305 0 0, false⟩
    "m" 3145728 4194305 10 0 0 (initialBulk ["m"]) ⟨none, none⟩
    (by decide) rfl rfl rfl rfl
  exact ⟨(h1.1 (by decide)).1, (h2.2 (by decide)).2.2.1, (h2.2 (by decide)).2.2.2⟩

/-- C3: when the compressed attempt of an item under the threshold fails
for any reason — network error, non-ok status, decompression error, or
post-decompression size check — `downloadMapFile` continues with the direct
attempt on the resulting state; the compressed phase never marks the item
`failed`, and whenever the item does end `failed` the message recorded on
it is the error of the direct (last attempted) strategy. -/
theorem compressed_failure_falls_back (env : ItemEnv) (name : String)
    (expected : Nat) (st : BulkDownloadProgress) (fs : ItemFs)
    (hsize : expected < 150 * 1024 * 1024)
    (herr : exceptIsError (bz2Attempt env name expected (markStart name st) fs).1 = true)
    (hmem : (st.maps.find? (fun m => m.mapName == name)).isSome = true) :
    downloadMapFile env name expected st fs
      = directAttempt env name expected
          ((bz2Attempt env name expected (markStart name st) fs).2.1)
          ((bz2Attempt env name expected (markStart name st) fs).2.2)
    ∧ itemStatus name ((bz2Attempt env name expected (markStart name st) fs).2.1)
        ≠ some MapStatus.failed
    ∧ (∀ msg, (downloadMapFile env name expected st fs).1.error = some msg →
        (downloadMapFile env name expected st fs).1.success = false
        ∧ itemStatus name ((downloadMapFile env name expected st fs).2.1)
            = some MapStatus.failed
        ∧ itemError name ((downloadMapFile env name expected st fs).2.1)
            = some (some msg)) := by
  have heq : downloadMapFile env name expected st fs
      = directAttempt env name expected
          ((bz2Attempt env name expected (markStart name st) fs).2.1)
          ((bz2Attempt env name expected (markStart name st) fs).2.2) := by
    unfold downloadMapFile
    rw [if_pos hsize]
    rcases hb : bz2Attempt env name expected (markStart name st) fs with ⟨r, st2, fs2⟩
    cases r with
    | ok u => rw [hb] at herr; simp [exceptIsError] at herr
    | error m => simp
  have hnotfail : itemStatus name ((bz2Attempt env name expected (markStart name st) fs).2.1)
      ≠ some MapStatus.failed := by
    apply bz2Attempt_not_failed
    rw [itemStatus_markStart]
    rcases st.maps.find? (fun m => m.mapName == name) with _ | m <;> simp
  refine ⟨heq, hnotfail, ?_⟩
  rw [heq]
  apply directAttempt_error_sets_item
  rw [bz2Attempt_present, markStart_present]
  exact hmem

/-- C3 (witness): an item whose compressed and direct fetches both return
HTTP 500 ends failed with the direct strategy's message recorded. -/
theorem compressed_failure_falls_back_witness :
    (downloadMapFile ⟨FetchOutcome.httpError 500, true, "", 0, FetchOutcome.httpError 500, false⟩
        "m" 1000 (initialBulk ["m"]) ⟨none, none⟩).1 = ⟨false, some "HTTP 500"⟩
    ∧ itemError "m" ((downloadMapFile ⟨FetchOutcome.httpError 500, true, "", 0, FetchOutcome.httpError 500, false⟩
        "m" 1000 (initialBulk ["m"]) ⟨none, none⟩).2.1) = some (some "HTTP 500") := by
  have h := compressed_failure_falls_back
    ⟨FetchOutcome.httpError 500, true, "", 0, FetchOutcome.httpError 500, false⟩
    "m" 1000 (initialBulk ["m"]) ⟨none, none⟩ (by decide) rfl rfl
  exact ⟨rfl, (h.2.2 "HTTP 500" rfl).2.2⟩

/-- C9: the transfer-strategy decision is a pure function of the expected
size alone: at or above 150 MiB the whole run is the direct attempt and is
insensitive to the compressed-path environment, while under 150 MiB the
compressed attempt runs first and, when it succeeds, decides the item with
no direct attempt. -/
theorem strategy_threshold (env env2 : ItemEnv) (name : String)
    (expected : Nat) (st : BulkDownloadProgress) (fs : ItemFs) :
    (150 * 1024 * 1024 ≤ expected →
      downloadMapFile env name expected st fs
        = directAttempt env name expected (markStart name st) fs)
    ∧ (150 * 1024 * 1024 ≤ expected → env2.directFetch = env.directFetch →
        env2.streamingAvailable = env.streamingAvailable →
        downloadMapFile env2 name expected st fs = downloadMapFile env name expected st fs)
    ∧ (expected < 150 * 1024 * 1024 →
        (bz2Attempt env name expected (markStart name st) fs).1 = Except.ok () →
        downloadMapFile env name expected st fs
          = (⟨true, none⟩, (bz2Attempt env name expected (markStart name st) fs).2)) := by
  have hdirect : ∀ envx : ItemEnv, 150 * 1024 * 1024 ≤ expected →
      downloadMapFile envx name expected st fs
        = directAttempt envx name expected (markStart name st) fs := by
    intro envx h
    unfold downloadMapFile
    rw [if_neg (by omega)]
  refine ⟨hdirect env, ?_, ?_⟩
  · intro h h1 h2
    rw [hdirect env2 h, hdirect env h]
    exact directAttempt_congr env env2 h1 h2 name expected (markStart name st) fs
  · intro h hok
    unfold downloadMapFile
    rw [if_pos h]
    rcases hb : bz2Attempt env name expected (markStart name st) fs with ⟨r, st2, fs2⟩
    cases r with
    | ok u => simp
    | error m => rw [hb] at hok; simp at hok

/-- C9 (witness): a 150 MiB item runs the direct attempt only, and a small
item whose compressed attempt succeeds is decided by it. -/
theorem strategy_threshold_witness :
    downloadMapFile ⟨FetchOutcome.httpError 500, true, "", 0, FetchOutcome.ok 5 0 0, false⟩
        "m" (150 * 1024 * 1024) (initialBulk ["m"]) ⟨none, none⟩
      = directAttempt ⟨FetchOutcome.httpError 500, true, "", 0, FetchOutcome.ok 5 0 0, false⟩
        "m" (150 * 1024 * 1024) (markStart "m" (initialBulk ["m"])) ⟨none, none⟩
    ∧ downloadMapFile ⟨FetchOutcome.ok 400 0 0, true, "", 1000, FetchOutcome.httpError 500, false⟩
        "m" 1000 (initialBulk ["m"]) ⟨none, none⟩
      = (⟨true, none⟩, (bz2Attempt ⟨FetchOutcome.ok 400 0 0, true, "", 1000, FetchOutcome.httpError 500, false⟩
        "m" 1000 (markStart "m" (initialBulk ["m"])) ⟨none, none⟩).2) := by
  have h1 := strategy_threshold
    ⟨FetchOutcome.httpError 500, true, "", 0, FetchOutcome.ok 5 0 0, false⟩
    ⟨FetchOutcome.httpError 500, true, "", 0, FetchOutcome.ok 5 0 0, false⟩
    "m" (150 * 1024 * 1024) (initialBulk ["m"]) ⟨none, none⟩
  have h2 := strategy_threshold
    ⟨FetchOutcome.ok 400 0 0, true, "", 1000, FetchOutcome.httpError 500, false⟩
    ⟨FetchOutcome.ok 400 0 0, true, "", 1000, FetchOutcome.httpError 500, false⟩
    "m" 1000 (initialBulk ["m"]) ⟨none, none⟩
  exact ⟨h1.1 (by decide), h2.2.2 (by decide) rfl⟩

/-- C10: when a file already exists at the package destination path and
cancellation is observed at the first chunk-boundary check, the pre-existing
file is deleted from disk even though the cancelled download wrote nothing,
and the session ends cleared. -/
theorem cancel_first_check_deletes_preexisting (sz status : Nat)
    (statusText : String) (chunks : List Nat) (contentLength : Nat) (t : ℚ) :
    downloadMapPackage (some 0)
      (PackageNet.resp true status statusText true chunks contentLength t) (some sz)
      = (⟨false, cancelMessage⟩, clearedProgress, none) := by
  cases chunks <;> simp [downloadMapPackage, packageReadLoop, flagAt]

/-- C5 (amended): with an unknown (zero) expected size the direct path
accepts unconditionally — the downloaded file is kept on disk and the
attempt does not fail — while the compressed path still compares the
decompressed size against 0: a decompressed size of at most 1 MiB is
accepted, above 1 MiB the file is deleted and the compressed attempt fails
with a size-mismatch error (after which the orchestrator falls back to the
direct strategy). -/
theorem zero_expected_size_verification (env : ItemEnv) (name : String)
    (actual bytes cl : Nat) (t : ℚ) (st : BulkDownloadProgress) (fs : ItemFs)
    (hbz : env.bz2Fetch = FetchOutcome.ok bytes t cl)
    (hok : env.decompressOk = true)
    (hds : env.decompressedSize = actual)
    (hdf : env.directFetch = FetchOutcome.ok actual t cl) :
    ((directAttempt env name 0 st fs).1.success = true
      ∧ ((directAttempt env name 0 st fs).2.2).bsp = some actual)
    ∧ (actual ≤ 1024 * 1024 →
        (bz2Attempt env name 0 st fs).1 = Except.ok ()
        ∧ ((bz2Attempt env name 0 st fs).2.2).bsp = some actual)
    ∧ (1024 * 1024 < actual →
        (bz2Attempt env name 0 st fs).1 = Except.error (sizeMismatchMsg 0 actual)
        ∧ ((bz2Attempt env name 0 st fs).2.2).bsp = none) := by
  obtain ⟨bzf, dok, derr, dsz, dirf, sa⟩ := env
  simp only at hbz hok hds hdf
  rw [hbz, hok, hds, hdf]
  unfold bz2Attempt directAttempt
  simp only
  refine ⟨?_, ?_, ?_⟩
  · split_ifs <;> simp_all [directFinish, directCatch]
  · intro hle
    have hng : ¬ (sizeDiff actual 0 > 1024 * 1024) := by
      simp only [sizeDiff]
      omega
    split_ifs <;> simp_all [bz2Finish]
  · intro hgt
    have hne : actual ≠ 0 := by omega
    have hbig : sizeDiff actual 0 > 1024 * 1024 := by
      simp only [sizeDiff]
      omega
    split_ifs <;> simp_all [bz2Finish]

/-- C5 (witness): with expected size 0, a 2 MiB body is kept and accepted
by the direct attempt but deleted and rejected by the compressed attempt. -/
theorem zero_expected_size_verification_witness :
    (directAttempt ⟨FetchOutcome.ok 400 0 0, true, "", 2097152, FetchOutcome.ok 2097152 0 0, false⟩
        "m" 0 (initialBulk ["m"]) ⟨none, none⟩).1.success = true
    ∧ ((directAttempt ⟨FetchOutcome.ok 400 0 0, true, "", 2097152, FetchOutcome.ok 2097152 0 0, false⟩
        "m" 0 (initialBulk ["m"]) ⟨none, none⟩).2.2).bsp = some 2097152
    ∧ (bz2Attempt ⟨FetchOutcome.ok 400 0 0, true, "", 2097152, FetchOutcome.ok 2097152 0 0, false⟩
        "m" 0 (initialBulk ["m"]) ⟨none, none⟩).1
        = Except.error (sizeMismatchMsg 0 2097152) := by
  have h := zero_expected_size_verification
    ⟨FetchOutcome.ok 400 0 0, true, "", 2097152, FetchOutcome.ok 2097152 0 0, false⟩
    "m" 2097152 400 0 0 (initialBulk ["m"]) ⟨none, none⟩ rfl rfl rfl rfl
  exact ⟨h.1.1, h.1.2, (h.2.2 (by decide)).1⟩

/-- C7 (amended): whenever the package download returns the cancellation
result it has not written the destination file — afterwards the path holds
either the pre-existing file or nothing, and a previously absent
destination stays absent — and the session ends with `progress = 0`,
`downloading = false` and a cleared speed.  A pre-existing destination file
is removed only when cancellation is observed at an in-loop chunk boundary;
at the two post-loop checks it is left in place. -/
theorem cancelled_download_effects (cancelFrom : Option Nat)
    (net : PackageNet) (dest : Option Nat)
    (h : (downloadMapPackage cancelFrom net dest).1 = ⟨false, cancelMessage⟩) :
    (downloadMapPackage cancelFrom net dest).2.1 = clearedProgress
    ∧ ((downloadMapPackage cancelFrom net dest).2.2 = dest
        ∨ (downloadMapPackage cancelFrom net dest).2.2 = none)
    ∧ (dest = none → (downloadMapPackage cancelFrom net dest).2.2 = none) := by
  cases net with
  | throws msg =>
    exfalso
    apply errorResult_ne_cancel msg
    simpa [downloadMapPackage] using congrArg HandlerResult.message h
  | resp ok status statusText streaming chunks cl t =>
    cases ok with
    | false =>
      exfalso
      apply errorResult_ne_cancel (catalogHttpMsg status statusText)
      simpa [downloadMapPackage] using congrArg HandlerResult.message h
    | true =>
      cases streaming with
      | false =>
        by_cases hf : flagAt cancelFrom 0 = true
        · simp only [downloadMapPackage] at h ⊢
          simp [hf]
        · exfalso
          apply successMsg_ne_cancel
          simpa [downloadMapPackage, hf] using congrArg HandlerResult.message h
      | true =>
        rcases hl : packageReadLoop cancelFrom cl chunks 0 0
            ⟨0, true, none⟩ with ⟨res, prog1⟩
        cases res with
        | none =>
          have hprog := packageReadLoop_cancelled cancelFrom cl chunks 0 0
            ⟨0, true, none⟩ (by rw [hl])
          rw [hl] at hprog
          simp only at hprog
          simp [downloadMapPackage, hl, hprog]
        | some rn =>
          obtain ⟨received, nextCheck⟩ := rn
          by_cases h1 : flagAt cancelFrom nextCheck = true
          · simp [downloadMapPackage, hl, h1]
          · by_cases h2 : flagAt cancelFrom (nextCheck + 1) = true
            · simp [downloadMapPackage, hl, h1, h2]
            · exfalso
              apply successMsg_ne_cancel
              simpa [downloadMapPackage, hl, h1, h2] using congrArg HandlerResult.message h

/-- C7 (witness): cancellation observed at the first chunk boundary of a
streaming package download yields the cancellation result with a cleared
session and no written destination. -/
theorem cancelled_download_effects_witness :
    (downloadMapPackage (some 0) (PackageNet.resp true 200 "OK" true [5] 5 0) (some 9)).2.1
      = clearedProgress
    ∧ ((downloadMapPackage (some 0) (PackageNet.resp true 200 "OK" true [5] 5 0) (some 9)).2.2 = some 9
        ∨ (downloadMapPackage (some 0) (PackageNet.resp true 200 "OK" true [5] 5 0) (some 9)).2.2 = none) := by
  have h := cancelled_download_effects (some 0)
    (PackageNet.resp true 200 "OK" true [5] 5 0) (some 9) rfl
  exact ⟨h.1, h.2.1⟩

/-- C8 (amended): at batch end `currentMap` and `downloadSpeed` are null,
and between items they are null whenever the finished item failed or
completed via the direct attempt; after an item that completed via the
compressed strategy, however, `currentMap` still holds that item's name
until the next item starts or the batch ends. -/
theorem current_map_reset_amended (sizes : String → Option Nat)
    (jobs : List (String × ItemEnv)) (name : String) (env : ItemEnv)
    (st : BulkDownloadProgress) :
    ((downloadMissingMaps sizes jobs).currentMap = none
      ∧ (downloadMissingMaps sizes jobs).downloadSpeed = none)
    ∧ (((sizes name).getD 0 < 150 * 1024 * 1024 →
          exceptIsError (bz2Attempt env name ((sizes name).getD 0)
            (markStart name st) ⟨none, none⟩).1 = true) →
        (stepItem sizes name env st).currentMap = none
        ∧ (stepItem sizes name env st).downloadSpeed = none)
    ∧ ((sizes name).getD 0 < 150 * 1024 * 1024 →
        (bz2Attempt env name ((sizes name).getD 0)
          (markStart name st) ⟨none, none⟩).1 = Except.ok () →
        (stepItem sizes name env st).currentMap = some name) := by
  refine ⟨⟨rfl, rfl⟩, ?_, ?_⟩
  · intro hcond
    have hf := stepItem_fields sizes name env st
    have hc := downloadMapFile_clears_unless_bz2 env name ((sizes name).getD 0)
      st ⟨none, none⟩ hcond
    exact ⟨hf.1.trans hc.1, hf.2.trans hc.2⟩
  · intro hlt hok
    have hf := stepItem_fields sizes name env st
    have hk := downloadMapFile_bz2_success_keeps env name ((sizes name).getD 0)
      st ⟨none, none⟩ hlt hok
    exact hf.1.trans hk

/-- C8 (witness): an empty batch ends cleared; an item that fails on both
strategies clears `currentMap`, and an item that completes via the
compressed strategy leaves `currentMap` set to its name. -/
theorem current_map_reset_amended_witness :
    (downloadMissingMaps (fun _ => some 1000) []).currentMap = none
    ∧ (stepItem (fun _ => some 1000) "m"
        ⟨FetchOutcome.httpError 500, true, "", 1000, FetchOutcome.httpError 500, false⟩
        (initialBulk ["m"])).currentMap = none
    ∧ (stepItem (fun _ => some 1000) "m"
        ⟨FetchOutcome.ok 400 0 0, true, "", 1000, FetchOutcome.netError "", false⟩
        (initialBulk ["m"])).currentMap = some "m" := by
  have h1 := current_map_reset_amended (fun _ => some 1000) []
    "m" ⟨FetchOutcome.httpError 500, true, "", 1000, FetchOutcome.httpError 500, false⟩
    (initialBulk ["m"])
  have h2 := current_map_reset_amended (fun _ => some 1000) []
    "m" ⟨FetchOutcome.ok 400 0 0, true, "", 1000, FetchOutcome.netError "", false⟩
    (initialBulk ["m"])
  exact ⟨h1.1.1, (h1.2.1 (fun _ => rfl)).1, h2.2.2 (by decide) rfl⟩

end SettingsHandler
